import Mathlib

/-!
# caddy-websocket-ratelimit: a shallow embedding of `ratelimit.go` and `caddyfile.go`

The package `websocketratelimit` is a Caddy HTTP middleware that wraps the
connection of a WebSocket request in a pair of token buckets
(`golang.org/x/time/rate`), one per direction.

Conventions of the embedding

* `int64` and `int` values are `Int`; the only operation of the package that
  can leave the `int64` range is the division in `ServeHTTP`, which is wrapped
  with `wrap64`.
* The only floating-point operation of the package is the conversion
  `rate.Limit(q)` of an `int64` to a `float64`; its result is an integer, computed
  exactly by `float64OfInt64`.
* A Go pointer that may be `nil` is an `Option`; calling a method that reads a
  field through a `nil` pointer, and an integer division by zero, are the two
  run-time panics of the package and are the `Panic` outcomes.
* Everything the package calls but does not define (the wrapped `net.Conn`, the
  `http.ResponseController`, the state of a context, the reservation inside a
  token bucket) is read from an `Env` of oracles that see the history of calls
  made so far; every call to a collaborator is appended to the `trace` of the
  `World`, so that "no token wait happens" or "nothing is forwarded" is a
  statement about the trace.
-/

namespace Websocketratelimit

/-! ## Collaborators -/

/-- Values of Go's `error` interface that the package can observe. `nil` is
`none : Option Error`. -/
inductive Error where
  /-- `d.ArgErr()` of the Caddyfile dispenser. -/
  | argErr
  /-- `d.Errf("invalid ... value '%s': %v", arg, err)`: the option, the argument, and
  whether strconv reported `ErrRange` (otherwise `ErrSyntax`). -/
  | invalidValue (option : String) (arg : String) (outOfRange : Bool)
  /-- `d.Errf("Unknown parameter: %s", d.Val())`. -/
  | unknownParameter (name : String)
  /-- The error of `rate`: `Wait(n=%d) exceeds limiter's burst %d`. -/
  | exceedsBurst (n : Int) (burst : Int)
  /-- Any other error value returned by a collaborator (I/O failure, context
  cancellation or expiry, a connection that cannot be hijacked). -/
  | other (code : Nat)
  deriving DecidableEq

/-- The run-time panics the package can raise. -/
inductive Panic where
  /-- A method read a field through a `nil` pointer. -/
  | nilDereference
  /-- Integer division by zero. -/
  | divideByZero
  deriving DecidableEq

/-- A non-nil `*zap.Logger`. -/
structure Logger where
  id : Nat
  deriving DecidableEq

/-- A `context.Context`; whether it is done is read from the environment. -/
structure Context where
  id : Nat
  deriving DecidableEq

/-- A `net.Conn` as returned by the underlying hijack. -/
structure NetConn where
  id : Nat
  deriving DecidableEq

/-- A `*bufio.ReadWriter` as returned by the underlying hijack. -/
structure BufReadWriter where
  id : Nat
  deriving DecidableEq

/-- The `http.ResponseWriter` handed to the middleware. -/
structure ResponseWriter where
  id : Nat
  deriving DecidableEq

/-- The type `rate.Limit`: a `float64` number of tokens per second, or `rate.Inf`.
The package only ever builds a limit by the conversion `rate.Limit(q)` of an
`int64` quotient `q`. The `float64` nearest to an integer is itself an integer, so
`finite v` keeps the exact value `v` of the `float64`; a converted `int64` is
never `rate.Inf`. -/
inductive Limit where
  | finite (perSecond : Int)
  | inf
  deriving DecidableEq

/-- The number of low bits a natural number below `2 ^ 64` loses when it is kept
with the 53 bits of the significand of a `float64`: the least `s` from `start` on
with `n < 2 ^ (53 + s)`, looking at most `fuel` steps ahead. -/
def droppedBits (n : Nat) (start : Nat) : Nat → Nat
  | 0 => start
  | fuel + 1 => if n < 2 ^ (53 + start) then start else droppedBits n (start + 1) fuel

/-- The magnitude of the `float64` nearest to the natural number `n ≤ 2 ^ 63`
(IEEE 754 round to nearest, ties to even): `n` itself below `2 ^ 53`, otherwise
`n` rounded to a multiple of `2 ^ s` where `s` is the number of bits dropped. -/
def roundToFloat64 (n : Nat) : Nat :=
  if n < 2 ^ 53 then n
  else
    let s := droppedBits n 0 11
    let m := n / 2 ^ s
    let rest := n % 2 ^ s
    let half := 2 ^ (s - 1)
    let m1 := if rest > half ∨ (rest = half ∧ m % 2 = 1) then m + 1 else m
    m1 * 2 ^ s

/-- The value of the `float64` that Go's conversion of the `int64` value `q` gives. -/
def float64OfInt64 (q : Int) : Int :=
  if q < 0 then -(roundToFloat64 q.natAbs : Int) else (roundToFloat64 q.natAbs : Int)

/-- The conversion `rate.Limit(q)` of an `int64` value. -/
def Limit.ofInt64 (q : Int) : Limit :=
  .finite (float64OfInt64 q)

/-- A `*rate.Limiter` that is not nil. `id` is the identity of the allocated
object; `limit` and `burst` are the arguments it was created with (the package
never calls `SetLimit` or `SetBurst`). The tokens currently in the bucket are
state of the library and are part of the environment. -/
structure Limiter where
  id : Nat
  limit : Limit
  burst : Int
  deriving DecidableEq

/-- One call made by the package to a collaborator. -/
inductive Event where
  /-- A call `logger.Debug(msg, ...)` or `logger.Info(msg, ...)` on a non-nil logger. -/
  | log (logger : Logger) (msg : String)
  /-- The call `rate.NewLimiter(limit, burst)`. -/
  | newLimiter (lim : Limiter)
  /-- The call `lim.WaitN(ctx, n)`. -/
  | waitN (lim : Limiter) (ctx : Context) (n : Int)
  /-- The call `conn.Write(buf)` on the wrapped connection. -/
  | connWrite (conn : NetConn) (buf : List UInt8)
  /-- The call `conn.Read(buf)` on the wrapped connection, with `len(buf)`. -/
  | connRead (conn : NetConn) (len : Nat)
  /-- The call `http.NewResponseController(rw).Hijack()`. -/
  | hijack (rw : ResponseWriter)
  deriving DecidableEq

/-- The state threaded through the package: the calls made so far and the
number of limiters allocated so far. -/
structure World where
  trace : List Event := []
  allocated : Nat := 0
  deriving DecidableEq

/-- Append a call to the trace. -/
def World.emit (wd : World) (e : Event) : World :=
  { wd with trace := wd.trace ++ [e] }

/-- The answers of the collaborators, each a function of the history of calls. -/
structure Env where
  /-- The result `(n, err)` of `conn.Write(buf)`. -/
  connWrite : List Event → NetConn → List UInt8 → Int × Option Error
  /-- The result `(n, err)` of `conn.Read(buf)`, given `len(buf)`. -/
  connRead : List Event → NetConn → Nat → Int × Option Error
  /-- The value of `ctx.Err()` when `WaitN` polls `ctx.Done()` on entry. -/
  ctxErr : List Event → Context → Option Error
  /-- The outcome of the reservation and of the sleep inside `WaitN`, once the
  burst guard and the entry poll of the context have passed. -/
  reserve : List Event → Limiter → Context → Int → Option Error
  /-- The result of `http.NewResponseController(rw).Hijack()`: the error, or the
  raw connection with its buffered reader and writer. -/
  hijack : List Event → ResponseWriter → Except Error (NetConn × BufReadWriter)

/-! ## `net/http`: requests and headers -/

/-- The type `http.Header`, a `map[string][]string`: a missing key reads as the
empty slice. -/
abbrev Header := String → List String

/-- `Header.Get` for a key that is already in canonical form (`"Upgrade"` and
`"Connection"` are): the first value stored under the key, `""` if there is
none. -/
def Header.Get (h : Header) (key : String) : String :=
  match h key with
  | [] => ""
  | v :: _ => v

/-- The part of `*http.Request` the package reads. -/
structure Request where
  Header : Header
  ctx : Context

/-- `req.Context()`. -/
def Request.Context (r : Request) : Context := r.ctx

/-- Source: `ratelimit.go`, `isWebSocketRequest`. -/
def isWebSocketRequest (r : Request) : Bool :=
  r.Header.Get "Upgrade" == "websocket" && r.Header.Get "Connection" == "Upgrade"

/-! ## `golang.org/x/time/rate` -/

/-- The call `rate.NewLimiter(r, b)`: a fresh limiter object. -/
def NewLimiter (r : Limit) (b : Int) (wd : World) : Limiter × World :=
  let lim : Limiter := { id := wd.allocated, limit := r, burst := b }
  (lim, { (wd.emit (.newLimiter lim)) with allocated := wd.allocated + 1 })

/-- The method `(*rate.Limiter).WaitN(ctx, n)` of `golang.org/x/time/rate`, which
`ratelimit.go` imports and calls. Its body starts with the guard
`if n > burst && limit != Inf { return error }` (the documented contract: it
returns an error if `n` exceeds the burst size, the context is cancelled, or the
expected wait exceeds the deadline of the context), then polls `ctx.Done()`, and
only then reserves tokens and sleeps; the reservation and the sleep are the
oracle `env.reserve`. -/
def Limiter.WaitN (env : Env) (lim : Limiter) (ctx : Context) (n : Int) (wd : World) :
    Option Error × World :=
  let wd1 := wd.emit (.waitN lim ctx n)
  if n > lim.burst ∧ lim.limit ≠ Limit.inf then
    (some (.exceedsBurst n lim.burst), wd1)
  else
    match env.ctxErr wd.trace ctx with
    | some err => (some err, wd1)
    | none => (env.reserve wd.trace lim ctx n, wd1)

/-! ## `ratelimit.go` -/

/-- A call `logger.Debug(...)` or `logger.Info(...)` through a `*zap.Logger` that may
be nil: zap reads `log.core` first, so a nil receiver panics. The structured
fields of the entry are not part of the model. -/
def logCall (logger : Option Logger) (msg : String) (wd : World) : Except Panic World :=
  match logger with
  | none => .error .nilDereference
  | some lg => .ok (wd.emit (.log lg msg))

/-- Source: `ratelimit.go`, `type WebSocketRateLimit struct`. The field
`connections` is never read or written by the package and is left out. -/
structure WebSocketRateLimit where
  UpByteRate : Int := 0
  DownByteRate : Int := 0
  UpBurstLimit : Int := 0
  DownBurstLimit : Int := 0
  TimeWindow : Int := 0
  logger : Option Logger := none
  deriving DecidableEq

/-- Source: `ratelimit.go`, `type limitedResponseWriter struct`. The only place
that builds one is `ServeHTTP`, after it has logged through `m.logger`, so the
logger stored here is never nil. -/
structure limitedResponseWriter where
  rw : ResponseWriter
  uploadLimiter : Option Limiter
  downloadLimiter : Option Limiter
  ctx : Context
  logger : Logger
  deriving DecidableEq

/-- Source: `ratelimit.go`, `type bidirectionalRateLimitedConn struct`. The only
place that builds one is `Hijack`, from the fields of a `limitedResponseWriter`. -/
structure bidirectionalRateLimitedConn where
  conn : NetConn
  uploadLimiter : Option Limiter
  downloadLimiter : Option Limiter
  ctx : Context
  logger : Logger
  deriving DecidableEq

/-- Source: `ratelimit.go`, `(*bidirectionalRateLimitedConn).Write`. -/
def bidirectionalRateLimitedConn.Write (env : Env) (b : bidirectionalRateLimitedConn)
    (buf : List UInt8) (wd : World) : (Int × Option Error) × World :=
  let wd1 := wd.emit (.log b.logger "[+]Writing...")
  let forward (w : World) : (Int × Option Error) × World :=
    let r := env.connWrite w.trace b.conn buf
    (r, (w.emit (.connWrite b.conn buf)).emit (.log b.logger "[+]Write"))
  match b.downloadLimiter with
  | some lim =>
    match lim.WaitN env b.ctx buf.length wd1 with
    | (some err, wd2) => ((0, some err), wd2)
    | (none, wd2) => forward wd2
  | none => forward wd1

/-- Source: `ratelimit.go`, `(*bidirectionalRateLimitedConn).Read`. The buffer is
represented by its length: the wrapper never looks at its contents. -/
def bidirectionalRateLimitedConn.Read (env : Env) (b : bidirectionalRateLimitedConn)
    (len : Nat) (wd : World) : (Int × Option Error) × World :=
  let wd1 := wd.emit (.log b.logger "[+]Reading...")
  let r := env.connRead wd1.trace b.conn len
  let wd2 := (wd1.emit (.connRead b.conn len)).emit (.log b.logger "[+]Read")
  match r.2 with
  | some err => ((r.1, some err), wd2)
  | none =>
    match b.uploadLimiter with
    | some lim =>
      match lim.WaitN env b.ctx r.1 wd2 with
      | (some err, wd3) => ((r.1, some err), wd3)
      | (none, wd3) => ((r.1, none), wd3)
    | none => ((r.1, none), wd2)

/-- Source: `ratelimit.go`, `(*limitedResponseWriter).Hijack`. The three results
are the connection, the buffered reader and writer, and the error. -/
def limitedResponseWriter.Hijack (env : Env) (r : limitedResponseWriter) (wd : World) :
    (Option bidirectionalRateLimitedConn × Option BufReadWriter × Option Error) × World :=
  let wd1 := wd.emit (.log r.logger "[+]Hijack")
  let wd2 := wd1.emit (.hijack r.rw)
  match env.hijack wd1.trace r.rw with
  | .error hijackErr => ((none, none, some hijackErr), wd2)
  | .ok (conn, brw) =>
    let limitConn : bidirectionalRateLimitedConn :=
      { conn := conn
        uploadLimiter := r.uploadLimiter
        downloadLimiter := r.downloadLimiter
        ctx := r.ctx
        logger := r.logger }
    ((some limitConn, some brw, none), wd2)

/-- Source: `ratelimit.go`, `(*WebSocketRateLimit).isUpLimitEnable`. -/
def WebSocketRateLimit.isUpLimitEnable (m : WebSocketRateLimit) : Bool :=
  decide (m.UpBurstLimit > 0)

/-- Source: `ratelimit.go`, `(*WebSocketRateLimit).isDownLimitEnable`. -/
def WebSocketRateLimit.isDownLimitEnable (m : WebSocketRateLimit) : Bool :=
  decide (m.DownBurstLimit > 0)

/-- Reduction of an integer to the `int64` range (two's complement). -/
def wrap64 (x : Int) : Int :=
  (x + 2 ^ 63) % 2 ^ 64 - 2 ^ 63

/-- The `int64` division `a / b` of Go: the quotient truncated toward zero, a panic
when `b` is zero, and wrap-around for the one overflowing case. -/
def div64 (a b : Int) : Except Panic Int :=
  if b = 0 then .error .divideByZero else .ok (wrap64 (Int.tdiv a b))

/-- The response writer that `ServeHTTP` hands to the next handler: the one it
was given, or its rate-limited wrapper. -/
inductive Writer where
  | plain (w : ResponseWriter)
  | limited (w : limitedResponseWriter)
  deriving DecidableEq

/-- A `caddyhttp.Handler`: the next handler of the chain, with the state it
leaves. -/
abbrev Handler := Writer → Request → World → Option Error × World

/-- Source: `ratelimit.go`, `(*WebSocketRateLimit).ServeHTTP`. The conversions
`rate.Limit(q)` and `int(b)` are `Limit.ofInt64 q` and `b` (an `int` has 64 bits). -/
def WebSocketRateLimit.ServeHTTP (m : WebSocketRateLimit) (w : ResponseWriter)
    (req : Request) (next : Handler) (wd : World) : Except Panic (Option Error × World) :=
  if !isWebSocketRequest req then
    .ok (next (.plain w) req wd)
  else
    match m.logger with
    | none => .error .nilDereference
    | some lg =>
      let wd1 := wd.emit (.log lg "[+]isWebSocketRequest")
      let lrw0 : limitedResponseWriter :=
        { rw := w, uploadLimiter := none, downloadLimiter := none, ctx := req.Context, logger := lg }
      let up : Except Panic (limitedResponseWriter × World) :=
        if m.isUpLimitEnable then
          match div64 m.UpByteRate m.TimeWindow with
          | .error p => .error p
          | .ok q =>
            let (lim, wd2) := NewLimiter (Limit.ofInt64 q) m.UpBurstLimit wd1
            .ok ({ lrw0 with uploadLimiter := some lim }, wd2)
        else .ok (lrw0, wd1)
      match up with
      | .error p => .error p
      | .ok (lrw1, wd2) =>
        let down : Except Panic (limitedResponseWriter × World) :=
          if m.isDownLimitEnable then
            match div64 m.DownByteRate m.TimeWindow with
            | .error p => .error p
            | .ok q =>
              let (lim, wd3) := NewLimiter (Limit.ofInt64 q) m.DownBurstLimit wd2
              .ok ({ lrw1 with downloadLimiter := some lim }, wd3)
          else .ok (lrw1, wd2)
        match down with
        | .error p => .error p
        | .ok (lrw2, wd3) => .ok (next (.limited lrw2) req wd3)

/-! ## `strconv` and the Caddyfile dispenser -/

/-- The two causes of a `*strconv.NumError`: `ErrSyntax` and `ErrRange`. -/
inductive NumError where
  | malformed
  | outOfRange
  deriving DecidableEq

/-- The digit loop of `strconv.ParseUint(s, 10, 64)`: `n` is the value read so
far. A byte that is not a decimal digit is `ErrSyntax`; the two overflow tests of
the loop (`n >= cutoff`, then `n1 < n || n1 > maxVal` on the wrapped sum) are
`ErrRange`. -/
def parseUintLoop : List Char → Nat → Except NumError Nat
  | [], n => .ok n
  | c :: cs, n =>
    if 48 ≤ c.toNat ∧ c.toNat ≤ 57 then
      let d := c.toNat - 48
      if n ≥ (2 ^ 64 - 1) / 10 + 1 then .error .outOfRange
      else
        let n10 := n * 10 % 2 ^ 64
        let n1 := (n10 + d) % 2 ^ 64
        if n1 < n10 ∨ n1 > 2 ^ 64 - 1 then .error .outOfRange
        else parseUintLoop cs n1
    else .error .malformed

/-- The function `strconv.ParseUint(s, 10, 64)`. -/
def ParseUint (s : List Char) : Except NumError Nat :=
  if s = [] then .error .malformed else parseUintLoop s 0

/-- The function `strconv.ParseInt(s, 10, 64)`: an optional sign, then
`ParseUint`, then the range test against `1 << 63`. When `ParseUint` reports
`ErrRange` it returns the largest `uint64`, which fails the range test for either
sign, so both errors of `ParseUint` come out as they are. -/
def ParseInt (s : String) : Except NumError Int :=
  match s.toList with
  | [] => .error .malformed
  | c :: cs =>
    let neg := c == '-'
    let digits := if c == '+' ∨ c == '-' then cs else c :: cs
    match ParseUint digits with
    | .error e => .error e
    | .ok un =>
      if !neg ∧ un ≥ 2 ^ 63 then .error .outOfRange
      else if neg ∧ un > 2 ^ 63 then .error .outOfRange
      else .ok (if neg then -(un : Int) else (un : Int))

/-- A token of the Caddyfile with the line it stands on. -/
structure Token where
  text : String
  line : Nat
  deriving DecidableEq

/-- The `*caddyfile.Dispenser` handed to `UnmarshalCaddyfile`, as far as the two
loops `for d.Next() { for d.NextBlock(0) { ... } }` see it: the tokens between
the braces of the block of the directive, in order. `d.Val()` is the text of the
token under the cursor, and `d.Args(&arg)` moves to the next token if it stands
on the same line and fails otherwise. -/
abbrev Dispenser := List Token

/-- The options of the directive: the cases of the `switch d.Val()`, each with the
wording of its error message. -/
def optionLabel (val : String) : Option String :=
  if val = "up_byte_rate" then some "up byte rate"
  else if val = "up_burst_limit" then some "up burst limit"
  else if val = "down_byte_rate" then some "down byte rate"
  else if val = "down_burst_limit" then some "down burst limit"
  else if val = "time_window" then some "time window"
  else none

/-- The assignment made by the case `val` of the `switch`. -/
def WebSocketRateLimit.assign (m : WebSocketRateLimit) (val : String) (v : Int) :
    WebSocketRateLimit :=
  if val = "up_byte_rate" then { m with UpByteRate := v }
  else if val = "up_burst_limit" then { m with UpBurstLimit := v }
  else if val = "down_byte_rate" then { m with DownByteRate := v }
  else if val = "down_burst_limit" then { m with DownBurstLimit := v }
  else if val = "time_window" then { m with TimeWindow := v }
  else m

/-- Source: `caddyfile.go`, `(*WebSocketRateLimit).UnmarshalCaddyfile`. The five
cases of the `switch` have the same shape and are folded into `optionLabel` and
`assign`. The result is the error returned, or the handler as the parse leaves
it when `nil` is returned. -/
def WebSocketRateLimit.UnmarshalCaddyfile (m : WebSocketRateLimit) :
    Dispenser → Except Error WebSocketRateLimit
  | [] => .ok m
  | [t] =>
    match optionLabel t.text with
    | none => .error (.unknownParameter t.text)
    | some _ => .error .argErr
  | t :: a :: rest =>
    match optionLabel t.text with
    | none => .error (.unknownParameter t.text)
    | some label =>
      if a.line ≠ t.line then .error .argErr
      else
        match ParseInt a.text with
        | .error e => .error (.invalidValue label a.text (e == .outOfRange))
        | .ok v => WebSocketRateLimit.UnmarshalCaddyfile (m.assign t.text v) rest

/-- The `caddy.Context` given to `Provision`; `ctx.Logger(m)` returns a logger that
is not nil. -/
structure CaddyContext where
  Logger : Logger
  deriving DecidableEq

/-- Source: `caddyfile.go`, `(*WebSocketRateLimit).Provision`. The result is the
panic raised, or the error returned with the handler as left by the call. -/
def WebSocketRateLimit.Provision (m : WebSocketRateLimit) (ctx : CaddyContext) (wd : World) :
    Except Panic ((Option Error × WebSocketRateLimit) × World) :=
  let m1 := if m.TimeWindow = 0 then { m with TimeWindow := 60 } else m
  let up : Except Panic (WebSocketRateLimit × World) :=
    if m1.UpBurstLimit = 0 then
      let m2 := { m1 with UpBurstLimit := 0, UpByteRate := 0 }
      match logCall m2.logger "upstream rate limit is disable" wd with
      | .error p => .error p
      | .ok wd1 => .ok (m2, wd1)
    else .ok (m1, wd)
  match up with
  | .error p => .error p
  | .ok (m2, wd1) =>
    let down : Except Panic (WebSocketRateLimit × World) :=
      if m2.DownBurstLimit = 0 then
        let m3 := { m2 with DownBurstLimit := 0, DownByteRate := 0 }
        match logCall m3.logger "downstream rate limit is disable" wd1 with
        | .error p => .error p
        | .ok wd2 => .ok (m3, wd2)
      else .ok (m2, wd1)
    match down with
    | .error p => .error p
    | .ok (m3, wd2) =>
      let m4 := { m3 with logger := some ctx.Logger }
      match logCall m4.logger "Init WebSocketRateLimit" wd2 with
      | .error p => .error p
      | .ok wd3 => .ok ((none, m4), wd3)

/-! ## Concrete inputs used by the statements below -/

/-- The headers `Upgrade: websocket`, `Connection: Upgrade`. -/
def upgradeHeaders : Header := fun key =>
  if key = "Upgrade" then ["websocket"] else if key = "Connection" then ["Upgrade"] else []

/-- The headers `Upgrade: websocket`, `Connection: keep-alive`. -/
def keepAliveHeaders : Header := fun key =>
  if key = "Upgrade" then ["websocket"] else if key = "Connection" then ["keep-alive"] else []

/-- The headers `Upgrade: WebSocket`, `Connection: Upgrade`. -/
def capitalisedHeaders : Header := fun key =>
  if key = "Upgrade" then ["WebSocket"] else if key = "Connection" then ["Upgrade"] else []

/-- A WebSocket upgrade request. -/
def upgradeRequest : Request := { Header := upgradeHeaders, ctx := ⟨0⟩ }

/-- A provisioned handler with `up_byte_rate 1000`, `up_burst_limit 100`,
`time_window 10` and the download direction disabled. -/
def slowUpload : WebSocketRateLimit :=
  { UpByteRate := 1000, UpBurstLimit := 100, TimeWindow := 10, logger := some ⟨0⟩ }

/-- A provisioned handler with `up_byte_rate 9007199254740993` (which is
`2 ^ 53 + 1`), `up_burst_limit 100`, `down_byte_rate 1000`, `down_burst_limit 100`
and `time_window 1`. -/
def hugeUpload : WebSocketRateLimit :=
  { UpByteRate := 9007199254740993, UpBurstLimit := 100, DownByteRate := 1000,
    DownBurstLimit := 100, TimeWindow := 1, logger := some ⟨1⟩ }

/-- A provisioned handler with `up_byte_rate 59`, `up_burst_limit 10` and the
default window of 60 seconds. -/
def trickleUpload : WebSocketRateLimit :=
  { UpByteRate := 59, UpBurstLimit := 10, TimeWindow := 60, logger := some ⟨0⟩ }

/-- An environment in which nothing ever goes wrong: no context is ever
cancelled or expires, every reservation of tokens is granted, the wrapped
connection writes the whole buffer and fills the whole read buffer, and the
connection can be hijacked. -/
def patientEnv : Env :=
  { connWrite := fun _ _ buf => (buf.length, none)
    connRead := fun _ _ len => (len, none)
    ctxErr := fun _ _ => none
    reserve := fun _ _ _ _ => none
    hijack := fun _ _ => .ok (⟨0⟩, ⟨0⟩) }

/-- A connection whose download bucket has burst 100 and refills with 100 bytes
per second, and whose upload bucket is disabled. -/
def slowDownloadConn : bidirectionalRateLimitedConn :=
  { conn := ⟨0⟩, uploadLimiter := none, downloadLimiter := some ⟨0, .finite 100, 100⟩,
    ctx := ⟨0⟩, logger := ⟨0⟩ }

/-- A connection whose upload bucket has burst 100 and refills with 100 bytes
per second, and whose download bucket is disabled. -/
def slowUploadConn : bidirectionalRateLimitedConn :=
  { conn := ⟨0⟩, uploadLimiter := some ⟨0, .finite 100, 100⟩, downloadLimiter := none,
    ctx := ⟨0⟩, logger := ⟨0⟩ }

/-- A response writer as `ServeHTTP` builds it, with a bucket in each direction. -/
def limitedWriter : limitedResponseWriter :=
  { rw := ⟨0⟩, uploadLimiter := some ⟨0, .finite 100, 100⟩,
    downloadLimiter := some ⟨1, .finite 50, 200⟩, ctx := ⟨0⟩, logger := ⟨0⟩ }

/-- A buffer of 1000 bytes. -/
def thousandBytes : List UInt8 := List.replicate 1000 0

/-- The block `up_byte_rate -5`, `up_burst_limit -1`, `down_byte_rate 7`,
`down_burst_limit 1`, `time_window -10`, one option a line. -/
def negativeBlock : Dispenser :=
  [⟨"up_byte_rate", 2⟩, ⟨"-5", 2⟩, ⟨"up_burst_limit", 3⟩, ⟨"-1", 3⟩,
   ⟨"down_byte_rate", 4⟩, ⟨"7", 4⟩, ⟨"down_burst_limit", 5⟩, ⟨"1", 5⟩,
   ⟨"time_window", 6⟩, ⟨"-10", 6⟩]

/-- The handler that `negativeBlock` is parsed into. -/
def negativeConfig : WebSocketRateLimit :=
  { UpByteRate := -5, UpBurstLimit := -1, DownByteRate := 7, DownBurstLimit := 1,
    TimeWindow := -10 }

/-! ## The request classifier -/

/-- The request `upgradeRequest` is a WebSocket request. -/
theorem upgradeRequest_isWebSocket : isWebSocketRequest upgradeRequest = true := by
  simp [isWebSocketRequest, Header.Get, upgradeRequest, upgradeHeaders]

/-- C5. `isWebSocketRequest` is true exactly when `Header.Get("Upgrade")` is the
string `websocket` and `Header.Get("Connection")` is the string `Upgrade`; two
requests whose headers agree under these two keys are classified alike, whatever
their other headers; `Upgrade: websocket` with `Connection: Upgrade` is a WebSocket
request, with `Connection: keep-alive` it is not, and `Upgrade: WebSocket` is not
either (the comparison is case-sensitive). -/
theorem isWebSocketRequest_iff :
    (∀ r : Request, isWebSocketRequest r = true ↔
      (r.Header.Get "Upgrade" = "websocket" ∧ r.Header.Get "Connection" = "Upgrade")) ∧
    (∀ r r' : Request, r.Header "Upgrade" = r'.Header "Upgrade" →
      r.Header "Connection" = r'.Header "Connection" →
      isWebSocketRequest r = isWebSocketRequest r') ∧
    (∀ ctx, isWebSocketRequest ⟨upgradeHeaders, ctx⟩ = true) ∧
    (∀ ctx, isWebSocketRequest ⟨keepAliveHeaders, ctx⟩ = false) ∧
    (∀ ctx, isWebSocketRequest ⟨capitalisedHeaders, ctx⟩ = false) := by
  refine ⟨?_, ?_, ?_, ?_, ?_⟩
  · intro r
    simp [isWebSocketRequest]
  · intro r r' hu hc
    simp [isWebSocketRequest, Header.Get, hu, hc]
  · intro ctx
    simp [isWebSocketRequest, Header.Get, upgradeHeaders]
  · intro ctx
    simp [isWebSocketRequest, Header.Get, keepAliveHeaders]
  · intro ctx
    simp [isWebSocketRequest, Header.Get, capitalisedHeaders]

/-! ## The duplex limiter -/

/-- Whatever it returns, `WaitN` is recorded as one call. -/
theorem WaitN_world (env : Env) (lim : Limiter) (ctx : Context) (n : Int) (wd : World) :
    (lim.WaitN env ctx n wd).2 = { wd with trace := wd.trace ++ [.waitN lim ctx n] } := by
  unfold Limiter.WaitN
  split_ifs
  · simp [World.emit]
  · cases env.ctxErr wd.trace ctx <;> simp [World.emit]

/-- The burst guard of `WaitN`: a request for more tokens than the burst of a
limiter with a finite limit is refused at once, whatever the context and the
bucket hold. -/
theorem WaitN_exceeds (env : Env) (lim : Limiter) (ctx : Context) (n : Int) (wd : World)
    (hn : lim.burst < n) (hlim : lim.limit ≠ Limit.inf) :
    lim.WaitN env ctx n wd =
      (some (.exceedsBurst n lim.burst), { wd with trace := wd.trace ++ [.waitN lim ctx n] }) := by
  unfold Limiter.WaitN
  rw [if_pos ⟨hn, hlim⟩]
  simp [World.emit]

/-- C1. `Write` on a connection whose download bucket is nil makes no `WaitN` call
and returns what the wrapped `conn.Write(buf)` returns; with a download bucket
`lim` it first calls `lim.WaitN(ctx, len(buf))`, returns `(0, err)` without
calling `conn.Write` when that fails with `err`, and otherwise calls
`conn.Write(buf)` once and returns its result unchanged. The upload bucket has no
influence on the result or on the calls made. -/
theorem Write_contract (env : Env) (b : bidirectionalRateLimitedConn) (buf : List UInt8)
    (wd : World) :
    (b.downloadLimiter = none →
      b.Write env buf wd =
        (env.connWrite (wd.trace ++ [.log b.logger "[+]Writing..."]) b.conn buf,
         { wd with trace := wd.trace ++ [.log b.logger "[+]Writing...",
             .connWrite b.conn buf, .log b.logger "[+]Write"] })) ∧
    (∀ lim, b.downloadLimiter = some lim →
      (∀ err, (lim.WaitN env b.ctx buf.length
            (wd.emit (.log b.logger "[+]Writing..."))).1 = some err →
        b.Write env buf wd =
          ((0, some err),
           { wd with trace := wd.trace ++ [.log b.logger "[+]Writing...",
               .waitN lim b.ctx buf.length] })) ∧
      ((lim.WaitN env b.ctx buf.length
            (wd.emit (.log b.logger "[+]Writing..."))).1 = none →
        b.Write env buf wd =
          (env.connWrite (wd.trace ++ [.log b.logger "[+]Writing...",
               .waitN lim b.ctx buf.length]) b.conn buf,
           { wd with trace := wd.trace ++ [.log b.logger "[+]Writing...",
               .waitN lim b.ctx buf.length, .connWrite b.conn buf,
               .log b.logger "[+]Write"] }))) ∧
    (∀ up, bidirectionalRateLimitedConn.Write env { b with uploadLimiter := up } buf wd =
      b.Write env buf wd) := by
  refine ⟨?_, ?_, ?_⟩
  · intro h
    simp [bidirectionalRateLimitedConn.Write, h, World.emit]
  · intro lim h
    have hw : (lim.WaitN env b.ctx buf.length (wd.emit (.log b.logger "[+]Writing..."))).2 =
        { wd with trace := wd.trace ++ [.log b.logger "[+]Writing...",
            .waitN lim b.ctx buf.length] } := by
      rw [WaitN_world]
      simp [World.emit]
    constructor
    · intro err he
      rcases hr : lim.WaitN env b.ctx buf.length (wd.emit (.log b.logger "[+]Writing..."))
        with ⟨e, w⟩
      rw [hr] at he hw
      simp only at he hw
      subst he hw
      simp [bidirectionalRateLimitedConn.Write, h, hr]
    · intro he
      rcases hr : lim.WaitN env b.ctx buf.length (wd.emit (.log b.logger "[+]Writing..."))
        with ⟨e, w⟩
      rw [hr] at he hw
      simp only at he hw
      subst he hw
      simp only [bidirectionalRateLimitedConn.Write, h, hr]
      simp [World.emit]
  · intro up
    rfl

/-- A `Write` of three bytes through a download bucket of burst 100 that grants the
tokens: one wait for 3 tokens, then the three bytes are forwarded. -/
theorem Write_contract_witness :
    slowDownloadConn.Write patientEnv [1, 2, 3] {} =
      ((3, none),
       { trace := [.log ⟨0⟩ "[+]Writing...", .waitN ⟨0, .finite 100, 100⟩ ⟨0⟩ 3,
           .connWrite ⟨0⟩ [1, 2, 3], .log ⟨0⟩ "[+]Write"],
         allocated := 0 }) :=
  ((Write_contract patientEnv slowDownloadConn [1, 2, 3] {}).2.1
    ⟨0, .finite 100, 100⟩ rfl).2 rfl

/-- C2. `Read` first calls the wrapped `conn.Read(buf)`, obtaining `(n, err)`. With
`err` not nil it returns `(n, err)` and makes no `WaitN` call. Otherwise, with a
nil upload bucket it returns `(n, nil)` and makes no `WaitN` call, and with an
upload bucket `lim` it calls `lim.WaitN(ctx, n)`, for the `n` bytes read, and
returns `(n, nil)` when the wait succeeds and `(n, err)` when it fails with `err`.
The download bucket has no influence on the result or on the calls made. -/
theorem Read_contract (env : Env) (b : bidirectionalRateLimitedConn) (len : Nat)
    (wd : World) :
    (∀ err, (env.connRead (wd.trace ++ [.log b.logger "[+]Reading..."]) b.conn len).2 =
        some err →
      b.Read env len wd =
        (((env.connRead (wd.trace ++ [.log b.logger "[+]Reading..."]) b.conn len).1, some err),
         { wd with trace := wd.trace ++ [.log b.logger "[+]Reading...",
             .connRead b.conn len, .log b.logger "[+]Read"] })) ∧
    ((env.connRead (wd.trace ++ [.log b.logger "[+]Reading..."]) b.conn len).2 = none →
      (b.uploadLimiter = none →
        b.Read env len wd =
          (((env.connRead (wd.trace ++ [.log b.logger "[+]Reading..."]) b.conn len).1, none),
           { wd with trace := wd.trace ++ [.log b.logger "[+]Reading...",
               .connRead b.conn len, .log b.logger "[+]Read"] })) ∧
      (∀ lim, b.uploadLimiter = some lim →
        b.Read env len wd =
          (((env.connRead (wd.trace ++ [.log b.logger "[+]Reading..."]) b.conn len).1,
            (lim.WaitN env b.ctx
              (env.connRead (wd.trace ++ [.log b.logger "[+]Reading..."]) b.conn len).1
              { wd with trace := wd.trace ++ [.log b.logger "[+]Reading...",
                  .connRead b.conn len, .log b.logger "[+]Read"] }).1),
           { wd with trace := wd.trace ++ [.log b.logger "[+]Reading...",
               .connRead b.conn len, .log b.logger "[+]Read",
               .waitN lim b.ctx
                 (env.connRead (wd.trace ++ [.log b.logger "[+]Reading..."]) b.conn len).1] }))) ∧
    (∀ down, bidirectionalRateLimitedConn.Read env { b with downloadLimiter := down } len wd =
      b.Read env len wd) := by
  refine ⟨?_, ?_, ?_⟩
  · intro err he
    simp only [bidirectionalRateLimitedConn.Read, World.emit, he]
    simp
  · intro he
    constructor
    · intro hu
      simp only [bidirectionalRateLimitedConn.Read, World.emit, he, hu]
      simp
    · intro lim hu
      have hw := WaitN_world env lim b.ctx
        (env.connRead (wd.trace ++ [.log b.logger "[+]Reading..."]) b.conn len).1
        { wd with trace := wd.trace ++ [.log b.logger "[+]Reading...",
            .connRead b.conn len, .log b.logger "[+]Read"] }
      rcases hr : lim.WaitN env b.ctx
        (env.connRead (wd.trace ++ [.log b.logger "[+]Reading..."]) b.conn len).1
        { wd with trace := wd.trace ++ [.log b.logger "[+]Reading...",
            .connRead b.conn len, .log b.logger "[+]Read"] } with ⟨e, w⟩
      rw [hr] at hw
      simp only [List.append_assoc, List.cons_append, List.nil_append] at hw hr
      subst hw
      simp only [bidirectionalRateLimitedConn.Read, World.emit, he, hu, List.append_assoc,
        List.cons_append, List.nil_append, hr]
      cases e <;> simp
  · intro down
    rfl

/-- A `Read` into a buffer of 64 bytes through an upload bucket of burst 100 that
grants the tokens: the read comes first, then one wait for the 64 bytes read. -/
theorem Read_contract_witness :
    slowUploadConn.Read patientEnv 64 {} =
      ((64, none),
       { trace := [.log ⟨0⟩ "[+]Reading...", .connRead ⟨0⟩ 64, .log ⟨0⟩ "[+]Read",
           .waitN ⟨0, .finite 100, 100⟩ ⟨0⟩ 64],
         allocated := 0 }) :=
  ((Read_contract patientEnv slowUploadConn 64 {}).2.1 rfl).2 ⟨0, .finite 100, 100⟩ rfl

/-! ## The stream promoter -/

/-- C6. `Hijack` calls the underlying `Hijack` once. When that call fails with
`err`, `Hijack` returns `(nil, nil, err)`; when it returns the raw connection `c`
and the buffered reader and writer `brw`, `Hijack` returns a
`bidirectionalRateLimitedConn` around `c` that holds the two buckets, the context
and the logger of the response writer, together with `brw` and a nil error. -/
theorem Hijack_contract (env : Env) (r : limitedResponseWriter) (wd : World) :
    (∀ err, env.hijack (wd.trace ++ [.log r.logger "[+]Hijack"]) r.rw = .error err →
      r.Hijack env wd =
        ((none, none, some err),
         { wd with trace := wd.trace ++ [.log r.logger "[+]Hijack", .hijack r.rw] })) ∧
    (∀ c brw, env.hijack (wd.trace ++ [.log r.logger "[+]Hijack"]) r.rw = .ok (c, brw) →
      r.Hijack env wd =
        ((some { conn := c, uploadLimiter := r.uploadLimiter,
                 downloadLimiter := r.downloadLimiter, ctx := r.ctx, logger := r.logger },
          some brw, none),
         { wd with trace := wd.trace ++ [.log r.logger "[+]Hijack", .hijack r.rw] })) := by
  constructor
  · intro err he
    simp only [limitedResponseWriter.Hijack, World.emit, he]
    simp
  · intro c brw he
    simp only [limitedResponseWriter.Hijack, World.emit, he]
    simp

/-- A successful `Hijack`: the connection returned holds the two buckets of the
response writer. -/
theorem Hijack_contract_witness :
    limitedWriter.Hijack patientEnv {} =
      ((some { conn := ⟨0⟩, uploadLimiter := some ⟨0, .finite 100, 100⟩,
               downloadLimiter := some ⟨1, .finite 50, 200⟩, ctx := ⟨0⟩, logger := ⟨0⟩ },
        some ⟨0⟩, none),
       { trace := [.log ⟨0⟩ "[+]Hijack", .hijack ⟨0⟩], allocated := 0 }) :=
  (Hijack_contract patientEnv limitedWriter {}).2 ⟨0⟩ ⟨0⟩ rfl

/-! ## Building the limiter pair -/

/-- On a non-negative dividend below `2 ^ 63` and a positive divisor, the `int64`
division of Go is the integer quotient. -/
theorem div64_eq (a b : Int) (ha : 0 ≤ a) (ha' : a < 2 ^ 63) (hb : 0 < b) :
    div64 a b = .ok (a / b) := by
  have hq : Int.tdiv a b = a / b := Int.tdiv_eq_ediv ha hb.le
  have h0 : 0 ≤ a / b := Int.ediv_nonneg ha hb.le
  have h1 : a / b ≤ a := Int.ediv_le_self b ha
  unfold div64 wrap64
  rw [if_neg hb.ne', hq]
  congr 1
  omega

/-- What `ServeHTTP` does with a WebSocket request once the logger is assigned
and the window is not zero: it hands to the next handler a
`limitedResponseWriter` around the writer it was given, with the context of the
request, and with a bucket in each direction whose burst is positive. -/
theorem ServeHTTP_delegates (m : WebSocketRateLimit) (w : ResponseWriter) (req : Request)
    (wd : World) (lg : Logger) (hws : isWebSocketRequest req = true)
    (hlog : m.logger = some lg) (htw : m.TimeWindow ≠ 0) :
    ∃ lrw wd', (∀ next : Handler, m.ServeHTTP w req next wd = .ok (next (.limited lrw) req wd')) ∧
      lrw.rw = w ∧ lrw.ctx = req.Context ∧ lrw.logger = lg ∧
      lrw.uploadLimiter =
        (if 0 < m.UpBurstLimit then
          some ⟨wd.allocated, Limit.ofInt64 (wrap64 (Int.tdiv m.UpByteRate m.TimeWindow)),
            m.UpBurstLimit⟩
        else none) ∧
      lrw.downloadLimiter =
        (if 0 < m.DownBurstLimit then
          some ⟨wd.allocated + (if 0 < m.UpBurstLimit then 1 else 0),
            Limit.ofInt64 (wrap64 (Int.tdiv m.DownByteRate m.TimeWindow)), m.DownBurstLimit⟩
        else none) := by
  refine ⟨{ rw := w, ctx := req.Context, logger := lg,
            uploadLimiter :=
              if 0 < m.UpBurstLimit then
                some ⟨wd.allocated, Limit.ofInt64 (wrap64 (Int.tdiv m.UpByteRate m.TimeWindow)),
                  m.UpBurstLimit⟩
              else none,
            downloadLimiter :=
              if 0 < m.DownBurstLimit then
                some ⟨wd.allocated + (if 0 < m.UpBurstLimit then 1 else 0),
                  Limit.ofInt64 (wrap64 (Int.tdiv m.DownByteRate m.TimeWindow)), m.DownBurstLimit⟩
              else none },
          { trace := wd.trace ++ [.log lg "[+]isWebSocketRequest"] ++
              (if 0 < m.UpBurstLimit then
                [.newLimiter ⟨wd.allocated,
                  Limit.ofInt64 (wrap64 (Int.tdiv m.UpByteRate m.TimeWindow)), m.UpBurstLimit⟩]
              else []) ++
              (if 0 < m.DownBurstLimit then
                [.newLimiter ⟨wd.allocated + (if 0 < m.UpBurstLimit then 1 else 0),
                  Limit.ofInt64 (wrap64 (Int.tdiv m.DownByteRate m.TimeWindow)), m.DownBurstLimit⟩]
              else []),
            allocated := wd.allocated + (if 0 < m.UpBurstLimit then 1 else 0) +
              (if 0 < m.DownBurstLimit then 1 else 0) },
          fun next => ?_, rfl, rfl, rfl, rfl, rfl⟩
  by_cases hu : 0 < m.UpBurstLimit <;> by_cases hd : 0 < m.DownBurstLimit <;>
    simp [WebSocketRateLimit.ServeHTTP, hws, hlog, WebSocketRateLimit.isUpLimitEnable,
      WebSocketRateLimit.isDownLimitEnable, div64, htw, hu, hd, NewLimiter, World.emit]

/-- The conversion to `float64` is exact on the integers from 0 to `2 ^ 53`. -/
theorem float64OfInt64_exact (q : Int) (h0 : 0 ≤ q) (h : q ≤ 2 ^ 53) :
    float64OfInt64 q = q := by
  have hq : ((q.natAbs : Nat) : Int) = q := Int.natAbs_of_nonneg h0
  unfold float64OfInt64
  rw [if_neg (by omega)]
  by_cases hlt : q.natAbs < 2 ^ 53
  · unfold roundToFloat64
    rw [if_pos hlt, hq]
  · have he : q.natAbs = 2 ^ 53 := by omega
    rw [he, ← hq, he]
    decide

/-- The integer quotient of a non-negative dividend by a positive divisor is
the truncated quotient. -/
theorem quotient_bounds (a b : Int) (ha : 0 ≤ a) (hb : 0 < b) :
    a / b * b ≤ a ∧ a < (a / b + 1) * b ∧ (a / b * b = a ↔ b ∣ a) ∧ (a < b → a / b = 0) := by
  refine ⟨Int.ediv_mul_le a hb.ne', Int.lt_ediv_add_one_mul_self a hb, ?_, ?_⟩
  · constructor
    · intro h
      exact Dvd.intro_left (a / b) h
    · intro h
      exact Int.ediv_mul_cancel h
  · intro h
    exact Int.ediv_eq_zero_of_lt ha h

/-- C4, amended. For a provisioned handler (its logger is assigned) with
non-negative `int64` rates and bursts and a positive window, `ServeHTTP` hands the
next handler of a WebSocket request a response writer whose upload bucket is nil
exactly when `up_burst_limit` is 0 and whose download bucket is nil exactly when
`down_burst_limit` is 0; a bucket that is there has the burst of its direction as
its capacity, and as its rate the `float64` nearest to the quotient
`byte_rate / time_window`, which is the quotient itself whenever the quotient is at
most `2 ^ 53`; the two buckets are distinct objects, allocated by this call. -/
theorem ServeHTTP_limiter_pair (m : WebSocketRateLimit) (w : ResponseWriter) (req : Request)
    (wd : World) (lg : Logger) (hws : isWebSocketRequest req = true)
    (hlog : m.logger = some lg)
    (hur : 0 ≤ m.UpByteRate) (hur' : m.UpByteRate < 2 ^ 63)
    (hdr : 0 ≤ m.DownByteRate) (hdr' : m.DownByteRate < 2 ^ 63)
    (hub : 0 ≤ m.UpBurstLimit) (hdb : 0 ≤ m.DownBurstLimit) (htw : 0 < m.TimeWindow) :
    ∃ lrw wd', (∀ next : Handler, m.ServeHTTP w req next wd = .ok (next (.limited lrw) req wd')) ∧
      (lrw.uploadLimiter = none ↔ m.UpBurstLimit = 0) ∧
      (lrw.downloadLimiter = none ↔ m.DownBurstLimit = 0) ∧
      (∀ lim, lrw.uploadLimiter = some lim →
        lim.burst = m.UpBurstLimit ∧
        lim.limit = Limit.ofInt64 (m.UpByteRate / m.TimeWindow) ∧
        (m.UpByteRate / m.TimeWindow ≤ 2 ^ 53 →
          lim.limit = .finite (m.UpByteRate / m.TimeWindow))) ∧
      (∀ lim, lrw.downloadLimiter = some lim →
        lim.burst = m.DownBurstLimit ∧
        lim.limit = Limit.ofInt64 (m.DownByteRate / m.TimeWindow) ∧
        (m.DownByteRate / m.TimeWindow ≤ 2 ^ 53 →
          lim.limit = .finite (m.DownByteRate / m.TimeWindow))) ∧
      (∀ u d, lrw.uploadLimiter = some u → lrw.downloadLimiter = some d → u.id ≠ d.id) ∧
      (∀ lim, lrw.uploadLimiter = some lim ∨ lrw.downloadLimiter = some lim →
        wd.allocated ≤ lim.id) := by
  obtain ⟨lrw, wd', hnext, -, -, -, hup, hdown⟩ :=
    ServeHTTP_delegates m w req wd lg hws hlog htw.ne'
  have qu : wrap64 (Int.tdiv m.UpByteRate m.TimeWindow) = m.UpByteRate / m.TimeWindow := by
    have := div64_eq m.UpByteRate m.TimeWindow hur hur' htw
    simpa [div64, htw.ne'] using this
  have qd : wrap64 (Int.tdiv m.DownByteRate m.TimeWindow) = m.DownByteRate / m.TimeWindow := by
    have := div64_eq m.DownByteRate m.TimeWindow hdr hdr' htw
    simpa [div64, htw.ne'] using this
  have eu : m.UpByteRate / m.TimeWindow ≤ 2 ^ 53 →
      Limit.ofInt64 (m.UpByteRate / m.TimeWindow) = .finite (m.UpByteRate / m.TimeWindow) := by
    intro h
    unfold Limit.ofInt64
    rw [float64OfInt64_exact _ (Int.ediv_nonneg hur htw.le) h]
  have ed : m.DownByteRate / m.TimeWindow ≤ 2 ^ 53 →
      Limit.ofInt64 (m.DownByteRate / m.TimeWindow) =
        .finite (m.DownByteRate / m.TimeWindow) := by
    intro h
    unfold Limit.ofInt64
    rw [float64OfInt64_exact _ (Int.ediv_nonneg hdr htw.le) h]
  rw [qu] at hup
  rw [qd] at hdown
  refine ⟨lrw, wd', hnext, ?_, ?_, ?_, ?_, ?_, ?_⟩
  · rw [hup]
    by_cases h : 0 < m.UpBurstLimit
    · simp [h]; omega
    · simp [h]; omega
  · rw [hdown]
    by_cases h : 0 < m.DownBurstLimit
    · simp [h]; omega
    · simp [h]; omega
  · intro lim hl
    rw [hup] at hl
    by_cases h : 0 < m.UpBurstLimit
    · simp [h] at hl; subst hl; exact ⟨rfl, rfl, eu⟩
    · simp [h] at hl
  · intro lim hl
    rw [hdown] at hl
    by_cases h : 0 < m.DownBurstLimit
    · simp [h] at hl; subst hl; exact ⟨rfl, rfl, ed⟩
    · simp [h] at hl
  · intro u d hu hd
    rw [hup] at hu
    rw [hdown] at hd
    by_cases h : 0 < m.UpBurstLimit
    · by_cases h' : 0 < m.DownBurstLimit
      · simp [h] at hu
        simp [h, h'] at hd
        subst hu hd
        simp
      · simp [h'] at hd
    · simp [h] at hu
  · intro lim hl
    rw [hup, hdown] at hl
    rcases hl with hl | hl
    · by_cases h : 0 < m.UpBurstLimit
      · simp [h] at hl; subst hl; simp
      · simp [h] at hl
    · by_cases h : 0 < m.DownBurstLimit
      · simp [h] at hl; subst hl; simp
      · simp [h] at hl

/-- C4, as the code behaves. The handler `hugeUpload` is what `Provision` leaves of
a new handler loaded with these values; all its values are non-negative and its
window is positive. For a WebSocket request `ServeHTTP` gives its upload bucket the
capacity 100 and the rate 9007199254740992, the `float64` nearest to the quotient
9007199254740993, not the quotient. -/
theorem ServeHTTP_rate_is_rounded :
    WebSocketRateLimit.Provision { hugeUpload with logger := none } ⟨⟨1⟩⟩ {} =
      .ok ((none, hugeUpload), { trace := [.log ⟨1⟩ "Init WebSocketRateLimit"], allocated := 0 }) ∧
    ∃ lrw wd', (∀ next : Handler,
        hugeUpload.ServeHTTP ⟨0⟩ upgradeRequest next {} =
          .ok (next (.limited lrw) upgradeRequest wd')) ∧
      ∃ lim, lrw.uploadLimiter = some lim ∧ lim.burst = 100 ∧
        lim.limit = .finite 9007199254740992 ∧
        lim.limit ≠ .finite (hugeUpload.UpByteRate / hugeUpload.TimeWindow) := by
  refine ⟨rfl, ?_⟩
  obtain ⟨lrw, wd', hnext, -, -, -, hup, -⟩ :=
    ServeHTTP_delegates hugeUpload ⟨0⟩ upgradeRequest {} ⟨1⟩ upgradeRequest_isWebSocket rfl
      (by decide)
  refine ⟨lrw, wd', hnext, _, hup, rfl, ?_, ?_⟩ <;> decide

/-- The configuration `up_byte_rate 1000`, `up_burst_limit 100`, `time_window 10` gives
an upload bucket of rate 100 and capacity 100, and no download bucket. -/
theorem ServeHTTP_limiter_pair_witness :
    ∃ lrw wd', (∀ next : Handler,
        slowUpload.ServeHTTP ⟨0⟩ upgradeRequest next {} = .ok (next (.limited lrw) upgradeRequest wd')) ∧
      (∃ lim, lrw.uploadLimiter = some lim ∧ lim.limit = .finite 100 ∧ lim.burst = 100) ∧
      lrw.downloadLimiter = none := by
  obtain ⟨lrw, wd', hnext, hu, hd, hul, -, -, -⟩ :=
    ServeHTTP_limiter_pair slowUpload ⟨0⟩ upgradeRequest {} ⟨0⟩
      upgradeRequest_isWebSocket rfl (by decide) (by decide) (by decide) (by decide)
      (by decide) (by decide) (by decide)
  refine ⟨lrw, wd', hnext, ?_, hd.2 rfl⟩
  cases hl : lrw.uploadLimiter with
  | none => exact absurd (hu.1 hl) (by decide)
  | some lim =>
    obtain ⟨hb, -, hr⟩ := hul lim hl
    exact ⟨lim, rfl, by rw [hr (by decide)]; rfl, by rw [hb]; rfl⟩

/-- C9. For a provisioned handler with a positive window, the rate of the bucket
that `ServeHTTP` builds for a direction with a positive burst and a non-negative
`int64` byte rate is the conversion `rate.Limit(r)` of an integer `r` that is the
truncated quotient of the byte rate by the window:
`r * time_window ≤ byte_rate < (r + 1) * time_window`, with equality on the left
exactly when the window divides the byte rate, and `r = 0` when the byte rate is
below the window. -/
theorem ServeHTTP_refill_rate (m : WebSocketRateLimit) (w : ResponseWriter) (req : Request)
    (wd : World) (lg : Logger) (hws : isWebSocketRequest req = true)
    (hlog : m.logger = some lg) (htw : 0 < m.TimeWindow) :
    ∃ lrw wd', (∀ next : Handler, m.ServeHTTP w req next wd = .ok (next (.limited lrw) req wd')) ∧
      (0 < m.UpBurstLimit → 0 ≤ m.UpByteRate → m.UpByteRate < 2 ^ 63 →
        ∃ lim r, lrw.uploadLimiter = some lim ∧ lim.limit = Limit.ofInt64 r ∧
          r * m.TimeWindow ≤ m.UpByteRate ∧ m.UpByteRate < (r + 1) * m.TimeWindow ∧
          (r * m.TimeWindow = m.UpByteRate ↔ m.TimeWindow ∣ m.UpByteRate) ∧
          (m.UpByteRate < m.TimeWindow → r = 0)) ∧
      (0 < m.DownBurstLimit → 0 ≤ m.DownByteRate → m.DownByteRate < 2 ^ 63 →
        ∃ lim r, lrw.downloadLimiter = some lim ∧ lim.limit = Limit.ofInt64 r ∧
          r * m.TimeWindow ≤ m.DownByteRate ∧ m.DownByteRate < (r + 1) * m.TimeWindow ∧
          (r * m.TimeWindow = m.DownByteRate ↔ m.TimeWindow ∣ m.DownByteRate) ∧
          (m.DownByteRate < m.TimeWindow → r = 0)) := by
  obtain ⟨lrw, wd', hnext, -, -, -, hup, hdown⟩ :=
    ServeHTTP_delegates m w req wd lg hws hlog htw.ne'
  refine ⟨lrw, wd', hnext, ?_, ?_⟩
  · intro hb h0 h1
    have q : wrap64 (Int.tdiv m.UpByteRate m.TimeWindow) = m.UpByteRate / m.TimeWindow := by
      have := div64_eq m.UpByteRate m.TimeWindow h0 h1 htw
      simpa [div64, htw.ne'] using this
    rw [if_pos hb, q] at hup
    exact ⟨_, m.UpByteRate / m.TimeWindow, hup, rfl, quotient_bounds _ _ h0 htw⟩
  · intro hb h0 h1
    have q : wrap64 (Int.tdiv m.DownByteRate m.TimeWindow) = m.DownByteRate / m.TimeWindow := by
      have := div64_eq m.DownByteRate m.TimeWindow h0 h1 htw
      simpa [div64, htw.ne'] using this
    rw [if_pos hb, q] at hdown
    exact ⟨_, m.DownByteRate / m.TimeWindow, hdown, rfl, quotient_bounds _ _ h0 htw⟩

/-- With `up_byte_rate 59` and the default window of 60 seconds the upload bucket
gets the rate 0: it never refills after its initial burst. -/
theorem ServeHTTP_refill_rate_witness :
    ∃ lrw wd', (∀ next : Handler,
        trickleUpload.ServeHTTP ⟨0⟩ upgradeRequest next {} =
          .ok (next (.limited lrw) upgradeRequest wd')) ∧
      ∃ lim, lrw.uploadLimiter = some lim ∧ lim.limit = .finite 0 := by
  obtain ⟨lrw, wd', hnext, hu, -⟩ :=
    ServeHTTP_refill_rate trickleUpload ⟨0⟩ upgradeRequest {} ⟨0⟩
      upgradeRequest_isWebSocket rfl (by decide)
  obtain ⟨lim, r, hl, hr, -, -, -, hz⟩ := hu (by decide) (by decide) (by decide)
  exact ⟨lrw, wd', hnext, lim, hl, by rw [hr, hz (by decide)]; rfl⟩

/-! ## Requests larger than the burst -/

/-- C3, as the code behaves. A `Write` of more bytes than the burst of the download
bucket is refused by the burst guard of `WaitN` with the error "exceeds the burst
of the limiter": `Write` returns `(0, err)` and forwards nothing, whatever the
state of the context and of the bucket; and a `Read` that received more bytes than
the burst of the upload bucket returns them with the same error. -/
theorem oversized_is_refused (env : Env) (b : bidirectionalRateLimitedConn) (lim : Limiter)
    (hlim : lim.limit ≠ Limit.inf) :
    (∀ buf wd, b.downloadLimiter = some lim → lim.burst < buf.length →
      b.Write env buf wd =
        ((0, some (.exceedsBurst buf.length lim.burst)),
         { wd with trace := wd.trace ++ [.log b.logger "[+]Writing...",
             .waitN lim b.ctx buf.length] })) ∧
    (∀ len wd n, b.uploadLimiter = some lim →
      env.connRead (wd.trace ++ [.log b.logger "[+]Reading..."]) b.conn len = (n, none) →
      lim.burst < n →
      b.Read env len wd =
        ((n, some (.exceedsBurst n lim.burst)),
         { wd with trace := wd.trace ++ [.log b.logger "[+]Reading...",
             .connRead b.conn len, .log b.logger "[+]Read", .waitN lim b.ctx n] })) := by
  constructor
  · intro buf wd hd hn
    simp only [bidirectionalRateLimitedConn.Write, hd, WaitN_exceeds env lim b.ctx _ _ hn hlim]
    simp [World.emit]
  · intro len wd n hu hr hn
    simp only [bidirectionalRateLimitedConn.Read, hu, World.emit, hr,
      WaitN_exceeds env lim b.ctx _ _ hn hlim]
    simp

/-- With burst 100 and 100 bytes per second, a context that is never cancelled
and a bucket that grants every reservation, a single `Write` of 1000 bytes is
refused at once and nothing is forwarded. -/
theorem oversized_is_refused_witness :
    slowDownloadConn.Write patientEnv thousandBytes {} =
      ((0, some (.exceedsBurst 1000 100)),
       { trace := [.log ⟨0⟩ "[+]Writing...", .waitN ⟨0, .finite 100, 100⟩ ⟨0⟩ 1000],
         allocated := 0 }) := by
  have hlen : thousandBytes.length = 1000 := List.length_replicate 1000 0
  have h := (oversized_is_refused patientEnv slowDownloadConn ⟨0, .finite 100, 100⟩
    (by decide)).1 thousandBytes {} rfl (by rw [hlen]; decide)
  rw [hlen] at h
  exact h

/-! ## Provisioning -/

/-- What `Provision` leaves when it returns: it returns nil, the window is 60 if
it was 0, the rate of a direction with burst 0 is 0, and the logger is the one of
the provisioning context. It can only return from a handler without a logger when
both bursts are non-zero. -/
theorem Provision_returns (m : WebSocketRateLimit) (ctx : CaddyContext) (wd : World)
    (err : Option Error) (m' : WebSocketRateLimit) (wd' : World)
    (h : m.Provision ctx wd = .ok ((err, m'), wd')) :
    err = none ∧
    m' = { UpByteRate := if m.UpBurstLimit = 0 then 0 else m.UpByteRate
           DownByteRate := if m.DownBurstLimit = 0 then 0 else m.DownByteRate
           UpBurstLimit := m.UpBurstLimit
           DownBurstLimit := m.DownBurstLimit
           TimeWindow := if m.TimeWindow = 0 then 60 else m.TimeWindow
           logger := some ctx.Logger } ∧
    (m.logger = none → m.UpBurstLimit ≠ 0 ∧ m.DownBurstLimit ≠ 0) := by
  rcases m with ⟨ur, dr, ub, db, tw, lg⟩
  by_cases h1 : tw = 0 <;> by_cases h2 : ub = 0 <;> by_cases h3 : db = 0 <;>
    cases lg <;>
    simp [WebSocketRateLimit.Provision, logCall, h1, h2, h3] at h ⊢ <;>
    (obtain ⟨⟨rfl, rfl⟩, -⟩ := h; simp)

/-- On a handler whose logger is already assigned, `Provision` returns nil and
leaves the window 60 if it was 0, the rate of a direction with burst 0 at 0, and
everything else as it was. -/
theorem Provision_assigned (m : WebSocketRateLimit) (ctx : CaddyContext) (wd : World)
    (lg : Logger) (hlog : m.logger = some lg) :
    ∃ wd', m.Provision ctx wd =
      .ok ((none,
            { UpByteRate := if m.UpBurstLimit = 0 then 0 else m.UpByteRate
              DownByteRate := if m.DownBurstLimit = 0 then 0 else m.DownByteRate
              UpBurstLimit := m.UpBurstLimit
              DownBurstLimit := m.DownBurstLimit
              TimeWindow := if m.TimeWindow = 0 then 60 else m.TimeWindow
              logger := some ctx.Logger }), wd') := by
  rcases m with ⟨ur, dr, ub, db, tw, lg'⟩
  cases hlog
  by_cases h1 : tw = 0 <;> by_cases h2 : ub = 0 <;> by_cases h3 : db = 0 <;>
    simp [WebSocketRateLimit.Provision, logCall, h1, h2, h3]

/-- C7, as the code behaves. On the handler Caddy provisions (a new one, whose
logger is not assigned yet) with `up_byte_rate 1000` and `up_burst_limit 0`,
`Provision` does not yield a configuration: it panics on the nil logger. -/
theorem Provision_disabled_upload_panics :
    WebSocketRateLimit.Provision
      { UpByteRate := 1000, UpBurstLimit := 0, DownByteRate := 500, DownBurstLimit := 50,
        TimeWindow := 0 } ⟨⟨1⟩⟩ {} = .error .nilDereference := by
  rfl

/-- C10, as the code behaves. On a handler whose logger is not assigned,
`Provision` calls the logger before assigning it whenever `up_burst_limit` or
`down_burst_limit` is 0, and panics on the nil pointer instead of returning. -/
theorem Provision_unset_logger (m : WebSocketRateLimit) (ctx : CaddyContext) (wd : World)
    (hlog : m.logger = none) (hb : m.UpBurstLimit = 0 ∨ m.DownBurstLimit = 0) :
    m.Provision ctx wd = .error .nilDereference := by
  rcases m with ⟨ur, dr, ub, db, tw, lg⟩
  cases hlog
  by_cases h1 : tw = 0 <;> by_cases h2 : ub = 0 <;> by_cases h3 : db = 0 <;>
    simp_all [WebSocketRateLimit.Provision, logCall]

/-- The handler with no option set, as `new(WebSocketRateLimit)` makes it, cannot
be provisioned. -/
theorem Provision_unset_logger_witness :
    WebSocketRateLimit.Provision {} ⟨⟨1⟩⟩ {} = .error .nilDereference :=
  Provision_unset_logger {} ⟨⟨1⟩⟩ {} rfl (Or.inl rfl)

/-! ## Loading a configuration -/

/-- The only errors `UnmarshalCaddyfile` returns: a missing argument, an argument
that `ParseInt` rejects, an unknown parameter. -/
theorem UnmarshalCaddyfile_errors (d : Dispenser) :
    (∀ (m : WebSocketRateLimit) (e : Error), m.UnmarshalCaddyfile d = .error e →
      e = .argErr ∨ (∃ name, e = .unknownParameter name) ∨
        (∃ label arg r, e = .invalidValue label arg r ∧ ∃ c, ParseInt arg = .error c)) ∧
    (∀ (t : Token) (m : WebSocketRateLimit) (e : Error),
      m.UnmarshalCaddyfile (t :: d) = .error e →
      e = .argErr ∨ (∃ name, e = .unknownParameter name) ∨
        (∃ label arg r, e = .invalidValue label arg r ∧ ∃ c, ParseInt arg = .error c)) := by
  induction d with
  | nil =>
    constructor
    · intro m e h
      simp [WebSocketRateLimit.UnmarshalCaddyfile] at h
    · intro t m e h
      unfold WebSocketRateLimit.UnmarshalCaddyfile at h
      cases hl : optionLabel t.text <;> simp [hl] at h
      · exact Or.inr (Or.inl ⟨_, h.symm⟩)
      · exact Or.inl h.symm
  | cons a rest ih =>
    refine ⟨ih.2 a, ?_⟩
    intro t m e h
    unfold WebSocketRateLimit.UnmarshalCaddyfile at h
    cases hl : optionLabel t.text with
    | none =>
      simp [hl] at h
      exact Or.inr (Or.inl ⟨_, h.symm⟩)
    | some label =>
      simp only [hl] at h
      by_cases hline : a.line ≠ t.line
      · rw [if_pos hline] at h
        simp at h
        exact Or.inl h.symm
      · rw [if_neg hline] at h
        cases hp : ParseInt a.text with
        | error c =>
          simp [hp] at h
          exact Or.inr (Or.inr ⟨_, _, _, h.symm, c, hp⟩)
        | ok v =>
          simp only [hp] at h
          exact ih.1 _ _ h

/-- C8, as the code behaves: a block with a negative rate, a negative burst and a
negative window is parsed without error, and the handler it gives is provisioned
without error with these negative values. -/
theorem negative_values_are_loaded :
    WebSocketRateLimit.UnmarshalCaddyfile {} negativeBlock = .ok negativeConfig ∧
    negativeConfig.Provision ⟨⟨1⟩⟩ {} =
      .ok ((none, { negativeConfig with logger := some ⟨1⟩ }),
           { trace := [.log ⟨1⟩ "Init WebSocketRateLimit"], allocated := 0 }) ∧
    negativeConfig.UpByteRate < 0 ∧ negativeConfig.UpBurstLimit < 0 ∧
    negativeConfig.TimeWindow < 0 := by
  refine ⟨rfl, rfl, ?_, ?_, ?_⟩ <;> decide

/-- C8, amended. Loading checks no sign. `ParseInt` accepts a minus sign followed by
digits of value up to `2 ^ 63` and returns the negative value; `UnmarshalCaddyfile`
stores the value `ParseInt` returns for the argument of an option, whatever its
sign, in the field of that option and goes on with the rest of the block, and the
only errors it returns are a missing argument, an argument `ParseInt` rejects and
an unknown parameter; when `Provision` returns, it returns nil, the window is not
zero (60 if it was zero, unchanged otherwise), the bursts are unchanged, and the
rate of a direction with a non-zero burst is unchanged. -/
theorem loading_checks_no_sign :
    (∀ (digits : List Char) (u : Nat), ParseUint digits = .ok u → u ≤ 2 ^ 63 →
      ParseInt (String.mk ('-' :: digits)) = .ok (-(u : Int))) ∧
    (∀ (m : WebSocketRateLimit) (t a : Token) (rest : Dispenser) (label : String) (v : Int),
      optionLabel t.text = some label → a.line = t.line → ParseInt a.text = .ok v →
      m.UnmarshalCaddyfile (t :: a :: rest) = (m.assign t.text v).UnmarshalCaddyfile rest) ∧
    (∀ (m : WebSocketRateLimit) (v : Int),
      (m.assign "up_byte_rate" v).UpByteRate = v ∧
      (m.assign "up_burst_limit" v).UpBurstLimit = v ∧
      (m.assign "down_byte_rate" v).DownByteRate = v ∧
      (m.assign "down_burst_limit" v).DownBurstLimit = v ∧
      (m.assign "time_window" v).TimeWindow = v) ∧
    (∀ (m : WebSocketRateLimit) (d : Dispenser) (e : Error), m.UnmarshalCaddyfile d = .error e →
      e = .argErr ∨ (∃ name, e = .unknownParameter name) ∨
        (∃ label arg r, e = .invalidValue label arg r ∧ ∃ c, ParseInt arg = .error c)) ∧
    (∀ (m : WebSocketRateLimit) (ctx : CaddyContext) (wd : World) (err : Option Error)
        (m' : WebSocketRateLimit) (wd' : World),
      m.Provision ctx wd = .ok ((err, m'), wd') →
      err = none ∧ m'.TimeWindow ≠ 0 ∧ (m.TimeWindow ≠ 0 → m'.TimeWindow = m.TimeWindow) ∧
      (m.TimeWindow = 0 → m'.TimeWindow = 60) ∧
      m'.UpBurstLimit = m.UpBurstLimit ∧ m'.DownBurstLimit = m.DownBurstLimit ∧
      (m.UpBurstLimit ≠ 0 → m'.UpByteRate = m.UpByteRate) ∧
      (m.DownBurstLimit ≠ 0 → m'.DownByteRate = m.DownByteRate)) := by
  refine ⟨?_, ?_, ?_, ?_, ?_⟩
  · intro digits u hu hle
    have hneg : ¬ ((2 : Nat) ^ 63 < u) := by omega
    simp [ParseInt, hu, hneg]
    omega
  · intro m t a rest label v hl hline hp
    rw [WebSocketRateLimit.UnmarshalCaddyfile]
    simp [hl, hline, hp]
  · intro m v
    simp [WebSocketRateLimit.assign]
  · intro m d e h
    exact (UnmarshalCaddyfile_errors d).1 m e h
  · intro m ctx wd err m' wd' h
    obtain ⟨he, hm, -⟩ := Provision_returns m ctx wd err m' wd' h
    subst hm
    refine ⟨he, ?_, ?_, ?_, rfl, rfl, ?_, ?_⟩
    · by_cases h0 : m.TimeWindow = 0 <;> simp [h0]
    · intro h0; simp [h0]
    · intro h0; simp [h0]
    · intro h0; simp [h0]
    · intro h0; simp [h0]

end Websocketratelimit
